import Mathlib

/-!
Verification of the MAVProxy `mavproxy_chat` Gemini chat session
(`MAVProxy/modules/mavproxy_chat/chat_gemini.py`, class `ChatGemini`).

The Python class is shallowly embedded as follows.

* JSON-serializable values passed between the model and the tool handlers
  become the inductive types `JAtom` / `JVal` (the code only ever builds
  flat objects, so object fields hold atoms).
* Parameter values (Python floats) become `ℚ`; the concrete literals used
  by the claims (5000, 10.5) are exact in both worlds.
* The external collaborators (vehicle telemetry, `param_set`,
  `process_stdin`, the wall clock) become fields of `Mpstate`: data for
  the telemetry, and `Except String`-valued outcomes for the external
  calls that may raise.
* The remote backend becomes a finite script `List BResult`: each call of
  `chat.send_message` consumes the next entry, which is either a response
  (`Except.ok`) or a raised fault (`Except.error msg`).  A call past the
  end of the script raises `exhausted_msg`.
* Console prints, status-sink and reply-sink emissions, and outbound
  network messages are recorded as an `Event` trace.
* `re.compile` / `pattern.match` is embedded as a small regular-expression
  engine (`rmatch`) over the fragment actually used by the code and the
  claims: literal characters, `.`, and the postfix quantifiers `*`, `+`,
  `?`; like Python `re.match` it is anchored at the start of the string
  and matches a prefix.  Characters outside the fragment are treated as
  literals.
* Python `sorted` on strings becomes an insertion sort by code-point
  lexicographic order (`py_sorted`).
* The `send_lock` discipline of `send_to_assistant` (acquire, perform the
  whole exchange including nested continuations, release) becomes a small
  labelled transition system `Sys` / `Step` over two competing callers.
-/

namespace ChatGeminiProof

instance {ε α : Type} [DecidableEq ε] [DecidableEq α] : DecidableEq (Except ε α) :=
  fun a b =>
    match a, b with
    | Except.ok x, Except.ok y =>
      if h : x = y then Decidable.isTrue (by rw [h]) else Decidable.isFalse (by simp [h])
    | Except.error x, Except.error y =>
      if h : x = y then Decidable.isTrue (by rw [h]) else Decidable.isFalse (by simp [h])
    | Except.ok _, Except.error _ => Decidable.isFalse (by simp)
    | Except.error _, Except.ok _ => Decidable.isFalse (by simp)

/-! ## JSON values and argument mappings -/

inductive JAtom where
  | str (s : String)
  | num (q : ℚ)
  | bool (b : Bool)
deriving DecidableEq

inductive JVal where
  | str (s : String)
  | num (q : ℚ)
  | bool (b : Bool)
  | obj (fields : List (String × JAtom))
deriving DecidableEq

/-- The argument mapping handed to a tool handler (a JSON object). -/
abbrev Args := List (String × JAtom)

/-- `arguments.get(key, None)`: first binding of `key`, if any. -/
def args_get (a : Args) (k : String) : Option JAtom :=
  match a with
  | [] => none
  | (k2, v) :: rest => if k2 = k then some v else args_get rest k

/-- The raw `function_call.args` blob: either a JSON object or garbage
that `json.loads` rejects. -/
inductive ArgsBlob where
  | good (a : Args)
  | bad
deriving DecidableEq

/-- `try: arguments = json.loads(function_call.args) except: arguments = {}` -/
def json_loads : ArgsBlob → Args
  | ArgsBlob.good a => a
  | ArgsBlob.bad => []

/-- Escape a character for a JSON string literal (`json.dumps`). -/
def escape_json_char (c : Char) : List Char :=
  if c = '"' then ['\\', '"']
  else if c = '\\' then ['\\', '\\']
  else [c]

def escape_json (s : String) : String :=
  String.mk (s.toList.foldr (fun c acc => escape_json_char c ++ acc) [])

/-- Decimal-style rendering of a rational (used by `jdump` for numbers;
the claims never inspect numeric dumps, only string dumps). -/
def jnum_repr (q : ℚ) : String :=
  if q.den = 1 then toString q.num else toString q.num ++ "/" ++ toString q.den

def jatom_dump : JAtom → String
  | JAtom.str s => "\"" ++ escape_json s ++ "\""
  | JAtom.num q => jnum_repr q
  | JAtom.bool b => cond b "true" "false"

def jfields_dump : List (String × JAtom) → String
  | [] => ""
  | [(k, v)] => "\"" ++ escape_json k ++ "\": " ++ jatom_dump v
  | (k, v) :: rest => "\"" ++ escape_json k ++ "\": " ++ jatom_dump v ++ ", " ++ jfields_dump rest

/-- `json.dumps(output)` for the values the handlers produce. -/
def jdump : JVal → String
  | JVal.str s => "\"" ++ escape_json s ++ "\""
  | JVal.num q => jnum_repr q
  | JVal.bool b => cond b "true" "false"
  | JVal.obj fs => "\x7b" ++ jfields_dump fs ++ "\x7d"

/-! ## `contains_regex` and the regular-expression engine -/

/-- The character set of `ChatGemini.contains_regex`:
`regex_characters = ".^$*+?{}[]\\|()"`. -/
def regex_characters : List Char :=
  ['.', '^', '$', '*', '+', '?', Char.ofNat 123, Char.ofNat 125,
   '[', ']', '\\', '|', '(', ')']

/-- `ChatGemini.contains_regex`: true when the string holds any character
from `regex_characters`. -/
def contains_regex (s : String) : Bool :=
  regex_characters.any (fun c => s.toList.contains c)

/-- One compiled regex token: a literal character or the wildcard `.`. -/
inductive RTok where
  | lit (c : Char)
  | dot
deriving DecidableEq

/-- Postfix quantifier attached to a token. -/
inductive RQuant where
  | one
  | star
  | plus
  | opt
deriving DecidableEq

def rtok_of (c : Char) : RTok :=
  if c = '.' then RTok.dot else RTok.lit c

/-- Compile a pattern string into (token, quantifier) pairs.  Characters
outside the modelled fragment are treated as literal characters. -/
def rcompile : List Char → List (RTok × RQuant)
  | [] => []
  | [c] => [(rtok_of c, RQuant.one)]
  | c :: d :: rest =>
    if d = '*' then (rtok_of c, RQuant.star) :: rcompile rest
    else if d = '+' then (rtok_of c, RQuant.plus) :: rcompile rest
    else if d = '?' then (rtok_of c, RQuant.opt) :: rcompile rest
    else (rtok_of c, RQuant.one) :: rcompile (d :: rest)

def tok_match : RTok → Char → Bool
  | RTok.dot, _ => true
  | RTok.lit c, d => c = d

/-- Anchored prefix matching with explicit fuel (`rmatch` below supplies
fuel that covers the whole search space, since every recursive call
strictly decreases `pattern length + subject length`). -/
def rmatch_fuel : Nat → List (RTok × RQuant) → List Char → Bool
  | 0, _, _ => false
  | _ + 1, [], _ => true
  | _ + 1, (_, RQuant.one) :: _, [] => false
  | f + 1, (t, RQuant.one) :: ps, c :: cs => tok_match t c && rmatch_fuel f ps cs
  | f + 1, (t, RQuant.star) :: ps, s =>
    rmatch_fuel f ps s ||
      (match s with
       | [] => false
       | c :: cs => tok_match t c && rmatch_fuel f ((t, RQuant.star) :: ps) cs)
  | _ + 1, (_, RQuant.plus) :: _, [] => false
  | f + 1, (t, RQuant.plus) :: ps, c :: cs =>
    tok_match t c && rmatch_fuel f ((t, RQuant.star) :: ps) cs
  | f + 1, (_, RQuant.opt) :: ps, [] => rmatch_fuel f ps []
  | f + 1, (t, RQuant.opt) :: ps, c :: cs =>
    rmatch_fuel f ps (c :: cs) || (tok_match t c && rmatch_fuel f ps cs)

/-- Anchored prefix matching, the semantics of Python `pattern.match`:
returns true when some prefix of the subject matches the whole pattern. -/
def rmatch (ps : List (RTok × RQuant)) (s : List Char) : Bool :=
  rmatch_fuel (ps.length + s.length + 1) ps s

/-- `re.compile(pattern)` followed by `.match(s)`, as a Boolean. -/
def re_match (pattern s : String) : Bool :=
  rmatch (rcompile pattern.toList) s.toList

/-! ## `sorted` on parameter names -/

/-- Code-point lexicographic order on character lists (Python string
comparison). -/
def lexLe : List Char → List Char → Bool
  | [], _ => true
  | _ :: _, [] => false
  | a :: as, b :: bs => if a = b then lexLe as bs else decide (a < b)

def str_le (a b : String) : Bool := lexLe a.toList b.toList

def insert_le (x : String) : List String → List String
  | [] => [x]
  | y :: ys => if str_le x y then x :: y :: ys else y :: insert_le x ys

/-- Python `sorted` on a list of strings (insertion sort by `str_le`). -/
def py_sorted : List String → List String
  | [] => []
  | x :: xs => insert_le x (py_sorted xs)

/-! ## External collaborator state (`self.mpstate` and friends) -/

/-- The fields of a mavlink `HEARTBEAT` message that the handlers read. -/
structure Heartbeat where
  type : Nat
  custom_mode : Nat
deriving DecidableEq

/-- The slice of the host (`mpstate`) visible to the tool handlers.
`param_set_result` / `process_stdin_result` are the outcomes of the
external calls `functions.param_set` and `functions.process_stdin`
(`Except.error m` models those calls raising with message `m`);
`now_str` is the `datetime.now().strftime(...)` wall-clock string. -/
structure Mpstate where
  now_str : String
  heartbeat : Option Heartbeat
  armed : Bool
  mav_param : List (String × ℚ)
  param_set_result : Except String Unit
  process_stdin_result : Except String Unit

/-- `self.mpstate.functions.get_mav_param(name, None)`. -/
def get_mav_param (st : Mpstate) (name : String) : Option ℚ :=
  match st.mav_param.find? (fun p => p.1 = name) with
  | some p => some p.2
  | none => none

/-! ## Tool handlers

Each handler is `Args → Mpstate → Except String JVal`; `Except.error m`
models an uncaught Python exception with message `m` escaping the
handler. -/

/-- `ChatGemini.get_current_datetime`. -/
def get_current_datetime (_args : Args) (st : Mpstate) : Except String JVal :=
  Except.ok (JVal.str st.now_str)

/-- mavutil `MAV_TYPE_*` constants used by `get_vehicle_type`:
FIXED_WING, VTOL_DUOROTOR, VTOL_QUADROTOR, VTOL_TILTROTOR. -/
def mav_types_plane : List Nat := [1, 19, 20, 21]

/-- QUADROTOR, COAXIAL, HEXAROTOR, OCTOROTOR, TRICOPTER, DODECAROTOR. -/
def mav_types_copter : List Nat := [2, 3, 13, 14, 15, 29]

/-- The chain of `if` statements in `get_vehicle_type` (each later branch
overrides the earlier ones, mirroring the source order). -/
def vehicle_type_str : Option Heartbeat → String
  | none => "unknown"
  | some hb =>
    let s := "unknown"
    let s := if hb.type ∈ mav_types_plane then "Plane" else s
    let s := if hb.type = 10 then "Rover" else s
    let s := if hb.type = 11 then "Boat" else s
    let s := if hb.type = 12 then "Sub" else s
    let s := if hb.type ∈ mav_types_copter then "Copter" else s
    let s := if hb.type = 4 then "Heli" else s
    let s := if hb.type = 5 then "Tracker" else s
    let s := if hb.type = 7 then "Blimp" else s
    s

/-- `ChatGemini.get_vehicle_type`. -/
def get_vehicle_type (_args : Args) (st : Mpstate) : Except String JVal :=
  Except.ok (JVal.obj [("vehicle_type", JAtom.str (vehicle_type_str st.heartbeat))])

/-- `ChatGemini.get_vehicle_state`. -/
def get_vehicle_state (_args : Args) (st : Mpstate) : Except String JVal :=
  let mode_number : Nat :=
    match st.heartbeat with
    | none => 0
    | some hb => hb.custom_mode
  Except.ok (JVal.obj [("armed", JAtom.bool st.armed), ("mode", JAtom.num mode_number)])

/-- The loop body of the regex branch of `get_parameter`: walk the sorted
parameter names, keep the ones the pattern matches and whose value
resolves (a name whose value does not resolve is printed and skipped). -/
def regex_collect (pname : String) (keys : List String) (st : Mpstate) :
    List (String × JAtom) :=
  match keys with
  | [] => []
  | k :: ks =>
    if re_match pname k then
      match get_mav_param st k with
      | none => regex_collect pname ks st
      | some v => (k, JAtom.num v) :: regex_collect pname ks st
    else regex_collect pname ks st

/-- `ChatGemini.get_parameter`.  A non-string `name` makes the Python
code call string methods on a non-string, raising; this is the
`Except.error` branch. -/
def get_parameter (args : Args) (st : Mpstate) : Except String JVal :=
  match args_get args "name" with
  | none => Except.ok (JVal.str "get_parameter: name not specified")
  | some (JAtom.str pname) =>
    if contains_regex pname then
      Except.ok (JVal.obj (regex_collect pname (py_sorted (st.mav_param.map Prod.fst)) st))
    else
      match get_mav_param st pname with
      | none => Except.ok (JVal.str ("get_parameter: " ++ pname ++ " parameter not found"))
      | some v => Except.ok (JVal.obj [(pname, JAtom.num v)])
  | some _ => Except.error "get_parameter: name is not a string"

/-- `ChatGemini.set_parameter`; the external `param_set` call may raise,
which propagates out of the handler. -/
def set_parameter (args : Args) (st : Mpstate) : Except String JVal :=
  match args_get args "name" with
  | none => Except.ok (JVal.str "set_parameter: parameter name not specified")
  | some _ =>
    match args_get args "value" with
    | none => Except.ok (JVal.str "set_parameter: value not specified")
    | some _ =>
      match st.param_set_result with
      | Except.ok _ => Except.ok (JVal.str "set_parameter: parameter value set")
      | Except.error e => Except.error e

/-- Upper-casing of the mode string (`mode.upper()`).  `String.map` does
not kernel-reduce, so spell it through the character list. -/
def str_upper (s : String) : String := String.mk (s.toList.map Char.toUpper)

/-- `ChatGemini.set_vehicle_mode`; the `process_stdin` call is inside a
`try` in the source, so its fault is converted to a result string by the
handler itself. -/
def set_vehicle_mode (args : Args) (st : Mpstate) : Except String JVal :=
  match args_get args "mode" with
  | none => Except.ok (JVal.str "set_vehicle_mode: mode not specified")
  | some (JAtom.str mode) =>
    let m := str_upper mode
    match st.process_stdin_result with
    | Except.ok _ => Except.ok (JVal.str ("set_vehicle_mode: Requested mode change to " ++ m))
    | Except.error e =>
      Except.ok (JVal.str ("set_vehicle_mode: Failed to set mode to " ++ m ++ " - " ++ e))
  | some _ => Except.error "set_vehicle_mode: mode is not a string"

/-! ## Tool registry and dispatch -/

/-- The registry built by `ChatGemini.define_tools` (name → handler);
descriptions and parameter schemas are omitted, the names and bound
handlers are what the claims are about. -/
def define_tools : List (String × (Args → Mpstate → Except String JVal)) :=
  [("get_current_datetime", get_current_datetime),
   ("get_vehicle_type", get_vehicle_type),
   ("get_vehicle_state", get_vehicle_state),
   ("get_parameter", get_parameter),
   ("set_parameter", set_parameter),
   ("set_vehicle_mode", set_vehicle_mode)]

/-- The `supported_funcs` list inside `ChatGemini.handle_function_call`. -/
def supported_funcs : List String :=
  ["get_current_datetime", "get_vehicle_type", "get_vehicle_state",
   "get_parameter", "set_parameter"]

/-- `getattr(self, func_name, None)` restricted to the tool methods. -/
def getattr_tool (name : String) : Option (Args → Mpstate → Except String JVal) :=
  if name = "get_current_datetime" then some get_current_datetime
  else if name = "get_vehicle_type" then some get_vehicle_type
  else if name = "get_vehicle_state" then some get_vehicle_state
  else if name = "get_parameter" then some get_parameter
  else if name = "set_parameter" then some set_parameter
  else if name = "set_vehicle_mode" then some set_vehicle_mode
  else none

/-- Observable emissions of the session: status-sink events, reply-sink
events, console prints, and outbound network messages. -/
inductive Event where
  | status (s : String)
  | reply (s : String)
  | log (s : String)
  | sent (s : String)
deriving DecidableEq

/-- The dispatch core of `handle_function_call` (everything between the
`supported_funcs` lookup and the continuation send): the produced
`output` value plus the console prints of that section. -/
def dispatch_core (name : String) (args : Args) (st : Mpstate) : JVal × List Event :=
  if name ∈ supported_funcs then
    match getattr_tool name with
    | some f =>
      match f args st with
      | Except.ok v => (v, [])
      | Except.error e =>
        (JVal.str (name ++ ": function call failed - " ++ e),
         [Event.log ("chat: " ++ name ++ ": function call failed - " ++ e)])
    | none =>
      (JVal.str ("Unrecognized function call: " ++ name),
       [Event.log ("chat: Unrecognized function name: " ++ name)])
  else
    (JVal.str ("Unrecognized function call: " ++ name),
     [Event.log ("chat: Unrecognized function name: " ++ name)])

/-- The `output` result of dispatching one function-call directive. -/
def dispatch_output (name : String) (args : Args) (st : Mpstate) : JVal :=
  (dispatch_core name args st).1

/-! ## Responses and the recursive response-handling loop -/

/-- A function-call directive carried by a response part. -/
structure FunctionCall where
  name : String
  args : ArgsBlob
deriving DecidableEq

/-- One part of a response candidate: optional text, optional
function-call directive (the source checks both with separate `if`s). -/
structure Part where
  text : Option String
  function_call : Option FunctionCall
deriving DecidableEq

/-- A backend response: a list of candidates, each with optional content
(a list of parts).  `none` models a candidate without usable content,
which the loop skips. -/
structure GResponse where
  candidates : List (Option (List Part))
deriving DecidableEq

/-- All parts the `handle_gemini_response` loops walk, in order. -/
def flatParts (r : GResponse) : List Part :=
  (r.candidates.filterMap id).foldr (· ++ ·) []

/-- One `chat.send_message` outcome: a response, or a raised fault. -/
abbrev BResult := Except String GResponse

/-- The fault message for a `send_message` call past the end of the
finite backend script. -/
def exhausted_msg : String := "backend exhausted"

/-- The reply-sink emissions of one part (`if part.text:` — the empty
string is falsy in Python). -/
def part_text_events (p : Part) : List Event :=
  match p.text with
  | some t => if t = "" then [] else [Event.reply t]
  | none => []

/-- The prefix of `handle_function_call` before the continuation send:
the empty-name early return (`none`) or the dispatched `output` with the
console prints it produced. -/
def fc_local (fc : FunctionCall) (st : Mpstate) : List Event × Option JVal :=
  if fc.name = "" then ([Event.log "chat: Empty function name received"], none)
  else
    let arguments := json_loads fc.args
    let (output, evs) := dispatch_core fc.name arguments st
    (Event.log ("chat: Handling function call: " ++ fc.name) :: evs, some output)

/-- The continuation message sent back to the backend after a dispatch. -/
def continuation_msg (name : String) (output : JVal) : String :=
  "Function result for " ++ name ++ ": " ++ jdump output

/-- Drain one frame (the remaining parts of one `handle_gemini_response`
activation) until it either finishes (emitting the final "Ready" status)
or suspends at a function call that needs a continuation send; a
suspension returns the name, the dispatched output, and the parts still
pending in this frame. -/
def drainFrame (st : Mpstate) : List Part → List Event × Option (String × JVal × List Part)
  | [] => ([Event.status "Ready"], none)
  | p :: ps =>
    let e1 := part_text_events p
    match p.function_call with
    | none =>
      let (e2, r) := drainFrame st ps
      (e1 ++ e2, r)
    | some fc =>
      match fc_local fc st with
      | (evs, none) =>
        let (e2, r) := drainFrame st ps
        (e1 ++ evs ++ e2, r)
      | (evs, some output) => (e1 ++ evs, some (fc.name, output, ps))

/-- Drain a stack of frames (innermost activation first). -/
def drainStack (st : Mpstate) :
    List (List Part) → List Event × Option (String × JVal × List (List Part))
  | [] => ([], none)
  | f :: rest =>
    match drainFrame st f with
    | (evs, some (n, o, ps)) => (evs, some (n, o, ps :: rest))
    | (evs, none) =>
      let (evs2, r2) := drainStack st rest
      (evs ++ evs2, r2)

/-- Drain one frame when the backend script is exhausted: every further
continuation send raises and is caught (`except: print(...)`). -/
def drainFrameFail (st : Mpstate) : List Part → List Event
  | [] => [Event.status "Ready"]
  | p :: ps =>
    let e1 := part_text_events p
    match p.function_call with
    | none => e1 ++ drainFrameFail st ps
    | some fc =>
      match fc_local fc st with
      | (evs, none) => e1 ++ evs ++ drainFrameFail st ps
      | (evs, some output) =>
        e1 ++ evs ++
          [Event.sent (continuation_msg fc.name output),
           Event.log ("chat: Error sending function response: " ++ exhausted_msg)] ++
          drainFrameFail st ps

/-- Drain a whole stack against an exhausted backend script. -/
def drainStackFail (st : Mpstate) : List (List Part) → List Event
  | [] => []
  | f :: rest => drainFrameFail st f ++ drainStackFail st rest

/-- Run the nested `handle_gemini_response` / `handle_function_call`
activations against the backend script.  The stack holds, innermost
first, the parts still pending in each suspended activation; each
continuation send consumes one script entry, which keeps the recursion
structural on the script. -/
def runStack (st : Mpstate) : List BResult → List (List Part) → List Event × List BResult
  | [], stack =>
    match drainStack st stack with
    | (evs, none) => (evs, [])
    | (evs, some (name, output, stack')) =>
      (evs ++
        [Event.sent (continuation_msg name output),
         Event.log ("chat: Error sending function response: " ++ exhausted_msg)] ++
        drainStackFail st stack', [])
  | e :: bt, stack =>
    match drainStack st stack with
    | (evs, none) => (evs, e :: bt)
    | (evs, some (name, output, stack')) =>
      match e with
      | Except.error m =>
        let (e2, b2) := runStack st bt stack'
        (evs ++
          [Event.sent (continuation_msg name output),
           Event.log ("chat: Error sending function response: " ++ m)] ++ e2, b2)
      | Except.ok r =>
        if r.candidates.isEmpty then
          let (e2, b2) := runStack st bt stack'
          (evs ++
            [Event.sent (continuation_msg name output),
             Event.reply "No response received from Gemini"] ++ e2, b2)
        else
          let (e2, b2) := runStack st bt (flatParts r :: stack')
          (evs ++ [Event.sent (continuation_msg name output)] ++ e2, b2)

/-- `ChatGemini.handle_gemini_response`: emissions and remaining backend
script. -/
def handle_gemini_response (r : GResponse) (st : Mpstate) (b : List BResult) :
    List Event × List BResult :=
  if r.candidates.isEmpty then ([Event.reply "No response received from Gemini"], b)
  else runStack st b [flatParts r]

/-- `ChatGemini.handle_function_call`: emissions and remaining backend
script.  The continuation send and the recursive response handling live
in a `try` whose `except` only prints. -/
def handle_function_call (fc : FunctionCall) (st : Mpstate) (b : List BResult) :
    List Event × List BResult :=
  match fc_local fc st with
  | (evs, none) => (evs, b)
  | (evs, some output) =>
    let msg := continuation_msg fc.name output
    match b with
    | [] =>
      (evs ++
        [Event.sent msg,
         Event.log ("chat: Error sending function response: " ++ exhausted_msg)], [])
    | Except.error m :: bt =>
      (evs ++
        [Event.sent msg,
         Event.log ("chat: Error sending function response: " ++ m)], bt)
    | Except.ok r :: bt =>
      let (e2, b2) := handle_gemini_response r st bt
      (evs ++ [Event.sent msg] ++ e2, b2)

/-! ## Connection checking and `send_to_assistant` -/

/-- The session's credential and backend-connectivity state:
`api_key` from the credential store, `model_init` the outcome of
`initialize_model` (or `ok` when the model already exists), `probe` the
outcome of the `generate_content("Test connection")` probe. -/
structure Session where
  api_key : Option String
  model_init : Except String Unit
  probe : Except String Unit

/-- Python truthiness of `self.api_key` (`None` and `""` are falsy). -/
def api_key_truthy : Option String → Bool
  | none => false
  | some s => !(s = "")

/-- `ChatGemini.check_connection`. -/
def check_connection (s : Session) : Bool × List Event :=
  if !(api_key_truthy s.api_key) then
    (false, [Event.log "chat: Gemini API key not set. Use \x27chat set_gemini_key YOUR_API_KEY\x27"])
  else
    match s.model_init with
    | Except.error e => (false, [Event.log ("chat: Failed to initialize Gemini model: " ++ e)])
    | Except.ok _ =>
      match s.probe with
      | Except.ok _ => (true, [Event.sent "Test connection"])
      | Except.error e =>
        (false, [Event.sent "Test connection",
                 Event.log ("chat: failed to connect to Gemini API: " ++ e)])

/-- `ChatGemini.send_to_assistant` (the body inside `with self.send_lock`):
emissions and remaining backend script. -/
def send_to_assistant (s : Session) (st : Mpstate) (text : String) (b : List BResult) :
    List Event × List BResult :=
  let (ok, e0) := check_connection s
  if !ok then (e0 ++ [Event.reply "chat: failed to connect to Gemini API"], b)
  else
    let e1 := e0 ++ [Event.status "Generating response...", Event.sent text]
    match b with
    | [] =>
      (e1 ++ [Event.log ("chat: Error: " ++ exhausted_msg),
              Event.status ("Error: " ++ exhausted_msg)], [])
    | Except.error m :: bt =>
      (e1 ++ [Event.log ("chat: Error: " ++ m), Event.status ("Error: " ++ m)], bt)
    | Except.ok r :: bt =>
      let (e2, b2) := handle_gemini_response r st bt
      (e1 ++ e2, b2)

/-! ## The wakeup-timer poller -/

/-- One entry of `self.wakeup_schedule`. -/
structure WakeupTimer where
  time : Int
  message : String
deriving DecidableEq

/-- Python `list.remove(x)`: remove the first element equal to `x`. -/
def remove_first (l : List WakeupTimer) (x : WakeupTimer) : List WakeupTimer :=
  match l with
  | [] => []
  | y :: ys => if y = x then ys else y :: remove_first ys x

/-- The body of one polling cycle of `check_wakeup_timers`: iterate the
snapshot `list(self.wakeup_schedule)`, and for each due timer send the
prefixed message and remove the timer from the live schedule.  Returns
the messages handed to `send_to_assistant`, in order, and the final
schedule. -/
def check_wakeup_timers_pass (now : Int) (snapshot live : List WakeupTimer) :
    List String × List WakeupTimer :=
  match snapshot with
  | [] => ([], live)
  | t :: rest =>
    if now ≥ t.time then
      let (msgs, live2) := check_wakeup_timers_pass now rest (remove_first live t)
      (("WAKEUP:" ++ t.message) :: msgs, live2)
    else check_wakeup_timers_pass now rest live

/-- One polling cycle of `check_wakeup_timers` over the current
schedule. -/
def check_wakeup_timers_cycle (now : Int) (schedule : List WakeupTimer) :
    List String × List WakeupTimer :=
  check_wakeup_timers_pass now schedule schedule

/-! ## The `send_lock` discipline

`send_to_assistant` runs its whole exchange inside `with self.send_lock`.
Two competing callers of `send_to_assistant` (say the UI thread and the
wakeup poller) are modelled as two threads, each of which acquires the
lock, performs its backend requests (the initial send plus every nested
continuation send), and releases.  `Step.acquire` is enabled only when
the lock is free, which is exactly the blocking `Lock.acquire`. -/

/-- Control state of one caller of `send_to_assistant`:
`idle n` — before the `with` block, with `n` continuation sends to come
after the initial send; `crit k` — inside the `with` block with `k`
backend requests still to perform; `done` — returned. -/
inductive TState where
  | idle (n : Nat)
  | crit (k : Nat)
  | done
deriving DecidableEq

/-- Lock owner (`false`/`true` name the two callers) plus both control
states. -/
structure Sys where
  lock : Option Bool
  th0 : TState
  th1 : TState
deriving DecidableEq

def getTh (s : Sys) : Bool → TState
  | false => s.th0
  | true => s.th1

def setTh (s : Sys) : Bool → TState → Sys
  | false, t => { s with th0 := t }
  | true, t => { s with th1 := t }

/-- Interleaving semantics of the two callers sharing `send_lock`. -/
inductive Step : Sys → Sys → Prop where
  | acquire (s : Sys) (i : Bool) (n : Nat) :
      s.lock = none → getTh s i = TState.idle n →
      Step s { setTh s i (TState.crit (n + 1)) with lock := some i }
  | request (s : Sys) (i : Bool) (k : Nat) :
      getTh s i = TState.crit (k + 1) →
      Step s (setTh s i (TState.crit k))
  | release (s : Sys) (i : Bool) :
      getTh s i = TState.crit 0 →
      Step s { setTh s i TState.done with lock := none }

/-- Reachability from a start state. -/
inductive Reach (s0 : Sys) : Sys → Prop where
  | refl : Reach s0 s0
  | tail {s s' : Sys} : Reach s0 s → Step s s' → Reach s0 s'

/-- Both callers waiting, lock free. -/
def sys_init (n0 n1 : Nat) : Sys :=
  { lock := none, th0 := TState.idle n0, th1 := TState.idle n1 }

/-- A caller is mid-exchange (inside the `with` block). -/
def inExchange : TState → Bool
  | TState.crit _ => true
  | _ => false

/-! ## Concrete fixtures used by the claims -/

/-- `5000` as an exact rational. -/
def q5000 : ℚ := ⟨5000, 1, by decide, by decide⟩

/-- `10.5` as an exact rational (`21/2`). -/
def q10_5 : ℚ := ⟨21, 2, by decide, by decide⟩

/-- `100` as an exact rational. -/
def q100 : ℚ := ⟨100, 1, by decide, by decide⟩

/-- The parameter store of the claims:
`BATT_CAPACITY=5000, BATT_LOW_VOLT=10.5, THR_MIN=100`. -/
def batt_params : List (String × ℚ) :=
  [("BATT_CAPACITY", q5000), ("BATT_LOW_VOLT", q10_5), ("THR_MIN", q100)]

/-- A healthy host state over `batt_params`. -/
def st0 : Mpstate :=
  { now_str := "Monday, January 01, 2024 10:00:00 AM"
    heartbeat := some { type := 2, custom_mode := 4 }
    armed := false
    mav_param := batt_params
    param_set_result := Except.ok ()
    process_stdin_result := Except.ok () }

/-- Host state whose external `param_set` call raises `boom`. -/
def st_err : Mpstate := { st0 with param_set_result := Except.error "boom" }

/-- A function-call directive for `get_current_datetime`. -/
def fc_dt : FunctionCall := { name := "get_current_datetime", args := ArgsBlob.good [] }

/-- A response part carrying only `fc_dt`. -/
def fc_part : Part := { text := none, function_call := some fc_dt }

/-- A response whose single candidate requests one tool call. -/
def fc_resp : GResponse := { candidates := [some [fc_part]] }

/-- A text-only response part. -/
def plain_part : Part := { text := some "All done", function_call := none }

/-- A response carrying only text (no function-call directive). -/
def plain_resp : GResponse := { candidates := [some [plain_part]] }

/-- A session with a valid key, an initialized model and a passing
connectivity probe. -/
def sess0 : Session :=
  { api_key := some "k", model_init := Except.ok (), probe := Except.ok () }

/-- A backend script made of `n` consecutive tool-call responses:
each continuation send is answered by yet another tool-call request. -/
def chain : Nat → List BResult
  | 0 => []
  | n + 1 => Except.ok fc_resp :: chain n

/-- `needle` starts `hay`. -/
def chars_start : List Char → List Char → Bool
  | [], _ => true
  | _ :: _, [] => false
  | a :: as, b :: bs => a = b && chars_start as bs

/-- `needle` occurs somewhere in `hay`. -/
def chars_sub (needle : List Char) : List Char → Bool
  | [] => chars_start needle []
  | c :: cs => chars_start needle (c :: cs) || chars_sub needle cs

/-- Substring test on strings. -/
def str_has_sub (needle hay : String) : Bool := chars_sub needle.toList hay.toList

/-- Event is an outbound network message. -/
def is_sent : Event → Bool
  | Event.sent _ => true
  | _ => false

/-- Event is a status-sink emission. -/
def is_status : Event → Bool
  | Event.status _ => true
  | _ => false

/-- Event is a reply-sink emission. -/
def is_reply : Event → Bool
  | Event.reply _ => true
  | _ => false

/-- Event is a status or reply emission whose text holds `needle`. -/
def sink_mentions (needle : String) : Event → Bool
  | Event.status s => str_has_sub needle s
  | Event.reply s => str_has_sub needle s
  | _ => false

/-! ## Lemmas about `py_sorted` -/

theorem lexLe_total (a b : List Char) : lexLe a b = true ∨ lexLe b a = true := by
  induction a generalizing b with
  | nil => left; rfl
  | cons x xs ih =>
    cases b with
    | nil => right; rfl
    | cons y ys =>
      by_cases hxy : x = y
      · subst hxy
        rcases ih ys with h | h
        · left; simp [lexLe, h]
        · right; simp [lexLe, h]
      · rcases lt_or_gt_of_ne hxy with h | h
        · left; simp [lexLe, hxy, h]
        · right; simp [lexLe, Ne.symm hxy, h, not_lt_of_gt h]

theorem lexLe_trans {a b c : List Char} (hab : lexLe a b = true) (hbc : lexLe b c = true) :
    lexLe a c = true := by
  induction a generalizing b c with
  | nil => rfl
  | cons x xs ih =>
    cases b with
    | nil => simp [lexLe] at hab
    | cons y ys =>
      cases c with
      | nil => simp [lexLe] at hbc
      | cons z zs =>
        by_cases hxy : x = y
        · subst hxy
          by_cases hyz : x = z
          · subst hyz
            simp only [lexLe, if_pos rfl] at hab hbc ⊢
            exact ih hab hbc
          · simp only [lexLe, if_pos rfl] at hab
            simp only [lexLe, if_neg hyz] at hbc ⊢
            exact hbc
        · by_cases hyz : y = z
          · subst hyz
            simp only [lexLe, if_neg hxy] at hab ⊢
            exact hab
          · simp only [lexLe, if_neg hxy] at hab
            simp only [lexLe, if_neg hyz] at hbc
            have hxz : x < z := lt_trans (of_decide_eq_true hab) (of_decide_eq_true hbc)
            simp [lexLe, ne_of_lt hxz, hxz]

theorem str_le_total (a b : String) : str_le a b = true ∨ str_le b a = true :=
  lexLe_total a.toList b.toList

theorem str_le_trans {a b c : String} (hab : str_le a b = true) (hbc : str_le b c = true) :
    str_le a c = true :=
  lexLe_trans hab hbc

/-- Membership in an insertion. -/
theorem mem_insert_le {z x : String} {l : List String} (h : z ∈ insert_le x l) :
    z = x ∨ z ∈ l := by
  induction l with
  | nil => simpa [insert_le] using h
  | cons y ys ih =>
    by_cases hxy : str_le x y = true
    · simpa [insert_le, hxy, or_assoc] using h
    · simp only [insert_le, hxy] at h
      simp only [Bool.false_eq_true, if_false, List.mem_cons] at h
      rcases h with h | h
      · right; simp [h]
      · rcases ih h with h | h
        · left; exact h
        · right; simp [h]

/-- Inserting into a sorted list keeps it sorted. -/
theorem insert_le_pairwise {x : String} {l : List String}
    (h : List.Pairwise (fun a b => str_le a b = true) l) :
    List.Pairwise (fun a b => str_le a b = true) (insert_le x l) := by
  induction l with
  | nil => simp [insert_le]
  | cons y ys ih =>
    rcases List.pairwise_cons.mp h with ⟨hy, hys⟩
    by_cases hxy : str_le x y = true
    · simp only [insert_le, hxy, if_true]
      refine List.pairwise_cons.mpr ⟨?_, h⟩
      intro z hz
      rcases hz with _ | hz
      · exact hxy
      · exact str_le_trans hxy (hy z (by assumption))
    · have hyx : str_le y x = true := by
        rcases str_le_total x y with h1 | h1
        · exact absurd h1 hxy
        · exact h1
      simp only [insert_le, hxy, Bool.false_eq_true, if_false]
      refine List.pairwise_cons.mpr ⟨?_, ih hys⟩
      intro z hz
      rcases mem_insert_le hz with h1 | h1
      · subst h1; exact hyx
      · exact hy z h1

/-- `py_sorted` output is sorted by `str_le`. -/
theorem py_sorted_pairwise (l : List String) :
    List.Pairwise (fun a b => str_le a b = true) (py_sorted l) := by
  induction l with
  | nil => simp [py_sorted]
  | cons x xs ih => exact insert_le_pairwise ih

theorem insert_le_perm (x : String) (l : List String) :
    List.Perm (insert_le x l) (x :: l) := by
  induction l with
  | nil => simp [insert_le]
  | cons y ys ih =>
    by_cases hxy : str_le x y = true
    · simp [insert_le, hxy]
    · simp only [insert_le, hxy, Bool.false_eq_true, if_false]
      exact (ih.cons y).trans (List.Perm.swap x y ys)

/-- `py_sorted` permutes its input. -/
theorem py_sorted_perm (l : List String) : List.Perm (py_sorted l) l := by
  induction l with
  | nil => simp [py_sorted]
  | cons x xs ih =>
    exact (insert_le_perm x (py_sorted xs)).trans (ih.cons x)

/-! ## Lemma characterizing the regex branch of `get_parameter` -/

/-- The regex-branch loop equals: filter the names the pattern matches,
then resolve each, dropping unresolved names. -/
theorem regex_collect_eq (pname : String) (keys : List String) (st : Mpstate) :
    regex_collect pname keys st =
      (keys.filter (fun k => re_match pname k)).filterMap
        (fun k => (get_mav_param st k).map (fun v => (k, JAtom.num v))) := by
  induction keys with
  | nil => rfl
  | cons k ks ih =>
    by_cases hm : re_match pname k = true
    · cases hv : get_mav_param st k with
      | none => simp [regex_collect, hm, hv, ih]
      | some v => simp [regex_collect, hm, hv, ih]
    · simp [regex_collect, hm, ih]

/-! ## Lemmas about the wakeup poller -/

/-- A timer is due at `now`. -/
def timer_due (now : Int) (t : WakeupTimer) : Bool := decide (now ≥ t.time)

/-- Removing due timers one by one, in order, from a live list. -/
def remove_list (live : List WakeupTimer) (ds : List WakeupTimer) : List WakeupTimer :=
  ds.foldl remove_first live

/-- The messages of one polling pass do not depend on the live list. -/
theorem pass_messages (now : Int) (snapshot : List WakeupTimer) :
    ∀ live, (check_wakeup_timers_pass now snapshot live).1 =
      (snapshot.filter (timer_due now)).map (fun t => "WAKEUP:" ++ t.message) := by
  induction snapshot with
  | nil => intro live; rfl
  | cons t rest ih =>
    intro live
    by_cases hd : now ≥ t.time
    · simp [check_wakeup_timers_pass, hd, timer_due, ih]
    · simp [check_wakeup_timers_pass, hd, timer_due, ih]

/-- The final schedule of one pass is the live list with the due snapshot
entries removed first-occurrence-wise, in order. -/
theorem pass_schedule (now : Int) (snapshot : List WakeupTimer) :
    ∀ live, (check_wakeup_timers_pass now snapshot live).2 =
      remove_list live (snapshot.filter (timer_due now)) := by
  induction snapshot with
  | nil => intro live; rfl
  | cons t rest ih =>
    intro live
    by_cases hd : now ≥ t.time
    · simp [check_wakeup_timers_pass, hd, timer_due, ih, remove_list]
    · simp [check_wakeup_timers_pass, hd, timer_due, ih, remove_list]

/-- Removing only due entries never touches a non-due head. -/
theorem remove_list_cons_of_not_due (now : Int) {t : WakeupTimer} {ds : List WakeupTimer}
    (hall : ∀ d ∈ ds, timer_due now d = true) (ht : timer_due now t = false) :
    ∀ live, remove_list (t :: live) ds = t :: remove_list live ds := by
  induction ds with
  | nil => intro live; rfl
  | cons d ds2 ih =>
    intro live
    have hd : timer_due now d = true := hall d (by simp)
    have htd : Not (t = d) := by
      intro he
      rw [he, hd] at ht
      exact Bool.noConfusion ht
    have : remove_first (t :: live) d = t :: remove_first live d := by
      simp [remove_first, htd]
    simp only [remove_list, List.foldl_cons, this]
    exact ih (fun x hx => hall x (by simp [hx])) (remove_first live d)

/-- Removing, from the list itself, exactly its due entries in order
leaves exactly the non-due entries. -/
theorem remove_list_self (now : Int) (l : List WakeupTimer) :
    remove_list l (l.filter (timer_due now)) = l.filter (fun t => !(timer_due now t)) := by
  induction l with
  | nil => rfl
  | cons t rest ih =>
    by_cases hd : timer_due now t = true
    · have : remove_first (t :: rest) t = rest := by simp [remove_first]
      simp only [List.filter_cons, hd, if_true, remove_list, List.foldl_cons, this]
      simpa [remove_list, hd] using ih
    · have ht : timer_due now t = false := by
        cases h : timer_due now t
        · rfl
        · exact absurd h hd
      rw [List.filter_cons, ht]
      simp only [Bool.false_eq_true, if_false]
      rw [remove_list_cons_of_not_due now (fun d hdm => List.of_mem_filter hdm) ht rest]
      simp [ih, List.filter_cons, ht]

/-! ## Lemmas about the response-handling loop -/

/-- A response carries no function-call directive in any part. -/
def no_function_calls (r : GResponse) : Bool :=
  (flatParts r).all (fun p => p.function_call.isNone)

/-- Draining a directive-free frame never suspends. -/
theorem drainFrame_no_fc (st : Mpstate) (ps : List Part)
    (h : ps.all (fun p => p.function_call.isNone) = true) :
    (drainFrame st ps).2 = none := by
  induction ps with
  | nil => rfl
  | cons p rest ih =>
    simp only [List.all_cons, Bool.and_eq_true] at h
    have hp : p.function_call = none := Option.isNone_iff_eq_none.mp h.1
    simp [drainFrame, hp, ih h.2]

/-- A directive-free single frame drains without suspension. -/
theorem drainStack_no_fc (st : Mpstate) (ps : List Part)
    (h : ps.all (fun p => p.function_call.isNone) = true) :
    (drainStack st [ps]).2 = none := by
  have h1 := drainFrame_no_fc st ps h
  simp only [drainStack]
  cases hf : drainFrame st ps with
  | mk evs r =>
    rw [hf] at h1
    simp at h1
    subst h1
    simp [drainStack]

/-- Draining `fc_part` suspends at the `get_current_datetime`
continuation. -/
theorem drainFrame_fc_part (st : Mpstate) :
    drainFrame st [fc_part] =
      ([Event.log "chat: Handling function call: get_current_datetime"],
       some ("get_current_datetime", JVal.str st.now_str, [])) := rfl

theorem drainStack_fc_part (st : Mpstate) (L : List (List Part)) :
    drainStack st ([fc_part] :: L) =
      ([Event.log "chat: Handling function call: get_current_datetime"],
       some ("get_current_datetime", JVal.str st.now_str, [] :: L)) := by
  simp [drainStack, drainFrame_fc_part]

/-- Remaining-script invariant of the tool-call chain: against a script
of `n` chained tool-call responses, the loop consumes the whole script
(one continuation send per response), whatever the depth already
reached. -/
theorem runStack_chain (st : Mpstate) :
    ∀ (n k : Nat), (runStack st (chain n) ([fc_part] :: List.replicate k [])).2 = [] := by
  intro n
  induction n with
  | zero =>
    intro k
    show (runStack st [] ([fc_part] :: List.replicate k [])).2 = []
    rw [runStack, drainStack_fc_part]
  | succ n ih =>
    intro k
    show (runStack st (Except.ok fc_resp :: chain n) ([fc_part] :: List.replicate k [])).2 = []
    rw [runStack, drainStack_fc_part]
    have hflat : flatParts fc_resp = [fc_part] := rfl
    have hne : fc_resp.candidates.isEmpty = false := rfl
    simp only [hne, Bool.false_eq_true, if_false, hflat]
    have hrep : ([] :: List.replicate k ([] : List Part)) = List.replicate (k + 1) [] := by
      simp [List.replicate_succ]
    rw [hrep]
    exact ih (k + 1)

/-! ## The lock invariant -/

/-- A caller is mid-exchange exactly when it owns the lock. -/
def sys_inv (s : Sys) : Prop :=
  (inExchange s.th0 = true ↔ s.lock = some false) ∧
  (inExchange s.th1 = true ↔ s.lock = some true)

theorem step_inv {s s' : Sys} (hs : sys_inv s) (hstep : Step s s') : sys_inv s' := by
  cases hstep with
  | acquire i n hlock hth =>
    cases i with
    | false =>
      simp only [getTh] at hth
      refine ⟨?_, ?_⟩
      · simp [setTh, inExchange]
      · have h1 : inExchange s.th1 = false := by
          cases h : inExchange s.th1
          · rfl
          · have := hs.2.mp h
            rw [hlock] at this
            exact Option.noConfusion this
        simp [setTh, h1]
    | true =>
      simp only [getTh] at hth
      refine ⟨?_, ?_⟩
      · have h0 : inExchange s.th0 = false := by
          cases h : inExchange s.th0
          · rfl
          · have := hs.1.mp h
            rw [hlock] at this
            exact Option.noConfusion this
        simp [setTh, h0]
      · simp [setTh, inExchange]
  | request i k hth =>
    cases i with
    | false =>
      simp only [getTh] at hth
      have hl : s.lock = some false := hs.1.mp (by rw [hth]; rfl)
      refine ⟨?_, ?_⟩
      · simp [setTh, inExchange, hl]
      · have := hs.2
        simpa [setTh] using this
    | true =>
      simp only [getTh] at hth
      have hl : s.lock = some true := hs.2.mp (by rw [hth]; rfl)
      refine ⟨?_, ?_⟩
      · have := hs.1
        simpa [setTh] using this
      · simp [setTh, inExchange, hl]
  | release i hth =>
    cases i with
    | false =>
      simp only [getTh] at hth
      have hl : s.lock = some false := hs.1.mp (by rw [hth]; rfl)
      refine ⟨?_, ?_⟩
      · simp [setTh, inExchange]
      · have h1 : inExchange s.th1 = false := by
          cases h : inExchange s.th1
          · rfl
          · have := hs.2.mp h
            rw [hl] at this
            simp at this
        simp [setTh, h1]
    | true =>
      simp only [getTh] at hth
      have hl : s.lock = some true := hs.2.mp (by rw [hth]; rfl)
      refine ⟨?_, ?_⟩
      · have h0 : inExchange s.th0 = false := by
          cases h : inExchange s.th0
          · rfl
          · have := hs.1.mp h
            rw [hl] at this
            simp at this
        simp [setTh, h0]
      · simp [setTh, inExchange]

theorem reach_inv {n0 n1 : Nat} {s : Sys} (h : Reach (sys_init n0 n1) s) : sys_inv s := by
  induction h with
  | refl => constructor <;> simp [sys_init, inExchange]
  | tail _ hstep ih => exact step_inv ih hstep

/-- If a drained stack produced no suspension, the backend script is
untouched. -/
theorem runStack_no_suspend (st : Mpstate) (b : List BResult) (stack : List (List Part))
    (h : (drainStack st stack).2 = none) : (runStack st b stack).2 = b := by
  cases hds : drainStack st stack with
  | mk evs ro =>
    rw [hds] at h
    simp only at h
    subst h
    cases b with
    | nil => simp [runStack, hds]
    | cons e bt => simp [runStack, hds]

/-! ## The claims -/

/-- C1: the claim says every tool name registered by `define_tools`
(including `set_vehicle_mode`) dispatches to its registered handler and
converts handler faults into `"<name>: function call failed - <message>"`.
The code registers `set_vehicle_mode` but omits it from
`supported_funcs`, so dispatching it yields the unrecognized-tool error
string instead of invoking the registered handler; for the five
supported names the dispatch-and-catch behaviour is as claimed
(demonstrated here for a raising `set_parameter`). -/
theorem c1_set_vehicle_mode_registered_but_not_dispatchable :
    define_tools.map Prod.fst =
      ["get_current_datetime", "get_vehicle_type", "get_vehicle_state",
       "get_parameter", "set_parameter", "set_vehicle_mode"] ∧
    "set_vehicle_mode" ∉ supported_funcs ∧
    dispatch_output "set_vehicle_mode" [("mode", JAtom.str "GUIDED")] st0 =
      JVal.str "Unrecognized function call: set_vehicle_mode" ∧
    dispatch_output "set_parameter"
        [("name", JAtom.str "THR_MIN"), ("value", JAtom.num q100)] st_err =
      JVal.str "set_parameter: function call failed - boom" :=
  ⟨rfl, by decide, by decide, by decide⟩

/-- C2: a `get_parameter` lookup whose name holds a regex character
treats the name as a pattern, walks the existing parameter names in
lexicographic order (`py_sorted` is a sorted permutation), and returns
the mapping of every matching, resolvable name to its value; on the
`BATT.*` example over `BATT_CAPACITY=5000, BATT_LOW_VOLT=10.5,
THR_MIN=100` it returns exactly the two `BATT` entries in name order. -/
theorem c2_get_parameter_regex :
    (∀ (st : Mpstate) (pname : String),
      contains_regex pname = true →
      get_parameter [("name", JAtom.str pname)] st =
        Except.ok (JVal.obj
          (((py_sorted (st.mav_param.map Prod.fst)).filter
              (fun k => re_match pname k)).filterMap
            (fun k => (get_mav_param st k).map (fun v => (k, JAtom.num v)))))) ∧
    (∀ l : List String,
      List.Pairwise (fun a b => str_le a b = true) (py_sorted l) ∧
        List.Perm (py_sorted l) l) ∧
    get_parameter [("name", JAtom.str "BATT.*")] st0 =
      Except.ok (JVal.obj
        [("BATT_CAPACITY", JAtom.num q5000), ("BATT_LOW_VOLT", JAtom.num q10_5)]) := by
  refine ⟨?_, fun l => ⟨py_sorted_pairwise l, py_sorted_perm l⟩, by decide⟩
  intro st pname h
  simp [get_parameter, args_get, h, regex_collect_eq]

theorem c2_witness :
    contains_regex "BATT.*" = true ∧
    get_parameter [("name", JAtom.str "BATT.*")] st0 =
      Except.ok (JVal.obj
        (((py_sorted (st0.mav_param.map Prod.fst)).filter
            (fun k => re_match "BATT.*" k)).filterMap
          (fun k => (get_mav_param st0 k).map (fun v => (k, JAtom.num v))))) :=
  ⟨by decide, c2_get_parameter_regex.1 st0 "BATT.*" (by decide)⟩

/-- C3: the whole `send_to_assistant` exchange (initial request and all
nested continuations) runs while holding `send_lock`, so in every state
reachable by two interleaved callers, a mid-exchange caller owns the
lock and the two callers are never mid-exchange at once — the second
caller's requests start only after the first's exchange completes. -/
theorem c3_send_lock_serializes :
    ∀ (n0 n1 : Nat) (s : Sys), Reach (sys_init n0 n1) s →
      (inExchange s.th0 = true → s.lock = some false) ∧
      (inExchange s.th1 = true → s.lock = some true) ∧
      ¬(inExchange s.th0 = true ∧ inExchange s.th1 = true) := by
  intro n0 n1 s h
  have hinv := reach_inv h
  refine ⟨hinv.1.mp, hinv.2.mp, ?_⟩
  rintro ⟨h0, h1⟩
  have e0 := hinv.1.mp h0
  have e1 := hinv.2.mp h1
  rw [e0] at e1
  exact Bool.noConfusion (Option.some.inj e1)

theorem c3_witness :
    (inExchange (TState.crit 1) = true → (some false : Option Bool) = some false) ∧
    (inExchange (TState.idle 5) = true → (some false : Option Bool) = some true) ∧
    ¬(inExchange (TState.crit 1) = true ∧ inExchange (TState.idle 5) = true) :=
  c3_send_lock_serializes 0 5
    { lock := some false, th0 := TState.crit 1, th1 := TState.idle 5 }
    (Reach.tail Reach.refl (Step.acquire (sys_init 0 5) false 0 rfl rfl))

/-- C4: in one polling cycle, every timer due at the wakeup instant
produces exactly one send of `"WAKEUP:" ++ message`, in the order the
timers appear in the schedule, and exactly the due timers are removed
from the schedule — so no timer is ever processed twice. -/
theorem c4_wakeup_timers_fire_once :
    ∀ (now : Int) (schedule : List WakeupTimer),
      (check_wakeup_timers_cycle now schedule).1 =
        (schedule.filter (timer_due now)).map (fun t => "WAKEUP:" ++ t.message) ∧
      (check_wakeup_timers_cycle now schedule).2 =
        schedule.filter (fun t => !(timer_due now t)) := by
  intro now schedule
  refine ⟨pass_messages now schedule schedule, ?_⟩
  rw [check_wakeup_timers_cycle, pass_schedule now schedule schedule, remove_list_self]

/-- C5 counterexample: a fault (`boom`) raised while sending the
function-result continuation is caught but only printed to the console;
the emitted trace carries no status or reply event mentioning the fault,
refuting "every fault while contacting the backend is reported through
the status sink as a text message". -/
theorem c5_continuation_fault_not_on_status_sink :
    (send_to_assistant sess0 st0 "hi" [Except.ok fc_resp, Except.error "boom"]).1 =
      [Event.sent "Test connection", Event.status "Generating response...",
       Event.sent "hi",
       Event.log "chat: Handling function call: get_current_datetime",
       Event.sent "Function result for get_current_datetime: \"Monday, January 01, 2024 10:00:00 AM\"",
       Event.log "chat: Error sending function response: boom",
       Event.status "Ready"] ∧
    ((send_to_assistant sess0 st0 "hi" [Except.ok fc_resp, Except.error "boom"]).1.all
      (fun e => !(sink_mentions "boom" e))) = true := by
  decide

/-- C5 (amended): every backend fault is caught and the send call
returns normally; a fault on the initial `send_message` is reported
through the status sink as `"Error: <message>"`, while a fault on a
function-result continuation send is caught and only logged to the
console (no status or reply emission reports it); the lock is released
on every exit path (a finished caller never holds the lock). -/
theorem c5_amended_fault_handling :
    (∀ (text m : String) (bt : List BResult) (st : Mpstate),
      send_to_assistant sess0 st text (Except.error m :: bt) =
        ([Event.sent "Test connection", Event.status "Generating response...",
          Event.sent text,
          Event.log ("chat: Error: " ++ m), Event.status ("Error: " ++ m)], bt)) ∧
    (∀ (m : String) (bt : List BResult) (st : Mpstate),
      handle_function_call fc_dt st (Except.error m :: bt) =
        ([Event.log "chat: Handling function call: get_current_datetime",
          Event.sent (continuation_msg "get_current_datetime" (JVal.str st.now_str)),
          Event.log ("chat: Error sending function response: " ++ m)], bt)) ∧
    (∀ (n0 n1 : Nat) (s : Sys), Reach (sys_init n0 n1) s → s.th0 = TState.done →
      s.lock ≠ some false) := by
  refine ⟨fun text m bt st => rfl, fun m bt st => rfl, ?_⟩
  intro n0 n1 s h hdone hlock
  have hinv := reach_inv h
  have hx := hinv.1.mpr hlock
  rw [hdone] at hx
  exact Bool.noConfusion hx

theorem c5_amended_witness :
    send_to_assistant sess0 st0 "x" [Except.error "m"] =
      ([Event.sent "Test connection", Event.status "Generating response...",
        Event.sent "x", Event.log "chat: Error: m", Event.status "Error: m"], []) ∧
    handle_function_call fc_dt st0 [Except.error "m"] =
      ([Event.log "chat: Handling function call: get_current_datetime",
        Event.sent (continuation_msg "get_current_datetime" (JVal.str st0.now_str)),
        Event.log "chat: Error sending function response: m"], []) ∧
    (Sys.mk none TState.done (TState.idle 0)).lock ≠ some false :=
  ⟨c5_amended_fault_handling.1 "x" "m" [] st0,
   c5_amended_fault_handling.2.1 "m" [] st0,
   c5_amended_fault_handling.2.2 0 0
     (Sys.mk none TState.done (TState.idle 0))
     (Reach.tail
       (Reach.tail
         (Reach.tail Reach.refl (Step.acquire (sys_init 0 0) false 0 rfl rfl))
         (Step.request { lock := some false, th0 := TState.crit 1, th1 := TState.idle 0 }
           false 0 rfl))
       (Step.release { lock := some false, th0 := TState.crit 0, th1 := TState.idle 0 }
         false rfl))
     rfl⟩

/-- C6: dispatching a directive whose name is not in the registry
returns the unrecognized-tool error string, never raises, and that error
string is threaded back to the backend as a function-result continuation
so the conversation continues. -/
theorem c6_unknown_tool_threaded_back :
    dispatch_output "nonexistent" [] st0 =
      JVal.str "Unrecognized function call: nonexistent" ∧
    handle_function_call { name := "nonexistent", args := ArgsBlob.good [] } st0
        [Except.ok plain_resp] =
      ([Event.log "chat: Handling function call: nonexistent",
        Event.log "chat: Unrecognized function name: nonexistent",
        Event.sent "Function result for nonexistent: \"Unrecognized function call: nonexistent\"",
        Event.reply "All done", Event.status "Ready"], []) := by
  decide

/-- C7: an exact (non-pattern) `get_parameter` lookup of an absent name
returns, without raising, an error string that holds the requested name
and the words "not found". -/
theorem c7_get_parameter_missing_name :
    get_parameter [("name", JAtom.str "NOPE")] st0 =
      Except.ok (JVal.str "get_parameter: NOPE parameter not found") ∧
    (∃ a b : String, "get_parameter: NOPE parameter not found" = a ++ "NOPE" ++ b) ∧
    (∃ a b : String, "get_parameter: NOPE parameter not found" = a ++ "not found" ++ b) :=
  ⟨by decide,
   ⟨"get_parameter: ", " parameter not found", by decide⟩,
   ⟨"get_parameter: NOPE parameter ", "", by decide⟩⟩

/-- C8: with no API key in the credential store, a send call reports the
connection failure through the reply sink and returns without any
outbound network message (no probe, no chat message) and without
touching the backend script. -/
theorem c8_no_key_no_network :
    ∀ (mi pr : Except String Unit) (st : Mpstate) (text : String) (b : List BResult),
      send_to_assistant { api_key := none, model_init := mi, probe := pr } st text b =
        ([Event.log "chat: Gemini API key not set. Use \x27chat set_gemini_key YOUR_API_KEY\x27",
          Event.reply "chat: failed to connect to Gemini API"], b) ∧
      ((send_to_assistant { api_key := none, model_init := mi, probe := pr } st text b).1.all
        (fun e => !(is_sent e))) = true := by
  intro mi pr st text b
  exact ⟨rfl, rfl⟩

/-- C9: the response-handling loop recurses only when a response carries
a function-call directive: a directive-free response consumes no further
backend responses (the exchange ends there), while a script of `n`
chained tool-call responses drives `n` nested continuations — the loop
itself enforces no depth bound, and it terminates for every finite
script. -/
theorem c9_loop_recursion_shape :
    (∀ (r : GResponse) (st : Mpstate) (b : List BResult),
      no_function_calls r = true → (handle_gemini_response r st b).2 = b) ∧
    (∀ (n : Nat) (st : Mpstate), (handle_gemini_response fc_resp st (chain n)).2 = []) := by
  constructor
  · intro r st b h
    simp only [no_function_calls] at h
    rw [handle_gemini_response]
    cases he : r.candidates.isEmpty with
    | true => simp [he]
    | false =>
      simp only [he, Bool.false_eq_true, if_false]
      exact runStack_no_suspend st b [flatParts r] (drainStack_no_fc st (flatParts r) h)
  · intro n st
    rw [handle_gemini_response]
    have he : fc_resp.candidates.isEmpty = false := rfl
    simp only [he, Bool.false_eq_true, if_false]
    exact runStack_chain st n 0

theorem c9_witness :
    no_function_calls plain_resp = true ∧
    (handle_gemini_response plain_resp st0 [Except.ok plain_resp]).2 =
      [Except.ok plain_resp] :=
  ⟨by decide, c9_loop_recursion_shape.1 plain_resp st0 [Except.ok plain_resp] (by decide)⟩

/-- C10: a function-call directive with an empty name is dropped before
dispatch: no handler runs and no function-result continuation is sent
(the backend script is untouched and no error result is threaded back);
and a directive whose args blob fails to parse as JSON behaves exactly
as one with an empty argument mapping. -/
theorem c10_empty_name_and_unparsable_args :
    (∀ (blob : ArgsBlob) (st : Mpstate) (b : List BResult),
      handle_function_call { name := "", args := blob } st b =
        ([Event.log "chat: Empty function name received"], b)) ∧
    (∀ (name : String) (st : Mpstate) (b : List BResult),
      handle_function_call { name := name, args := ArgsBlob.bad } st b =
        handle_function_call { name := name, args := ArgsBlob.good [] } st b) := by
  exact ⟨fun blob st b => rfl, fun name st b => rfl⟩

end ChatGeminiProof
